import Mathlib

/-!
Shallow embedding of the kachi link-unwrapping core
(src/kachi/schemas.py and src/kachi/main.py).

Strings are modelled as Lean String (logically a list of characters);
Python functions that can raise are modelled as Except String.
Python standard-library routines called by the source (urllib.parse,
base64, html, re) are modelled by executable Lean functions; each such
model carries a doc comment explaining what it models and any
restriction of the modelled fragment.
-/

namespace Kachi

/-! Generic helpers on lists of characters. -/

/-- Decides whether the first list occurs as a contiguous subsequence of the
second list.  This is the Boolean core used to model regex search for
metacharacter-free patterns. -/
def containsSeq (needle : List Char) : List Char → Bool
  | [] => needle.isPrefixOf []
  | c :: t => needle.isPrefixOf (c :: t) || containsSeq needle t

/-- Splits a list at the first occurrence of the separator, returning the
parts before and after it, or none when the separator does not occur. -/
def splitFirst (sep : Char) : List Char → Option (List Char × List Char)
  | [] => none
  | c :: t =>
    if c = sep then some ([], t)
    else
      match splitFirst sep t with
      | none => none
      | some (a, b) => some (c :: a, b)

/-- Models Python str.split(sep) for a one-character separator: splits at
every occurrence, keeping empty pieces. -/
def splitOnChar (sep : Char) (l : List Char) : List (List Char) :=
  l.foldr
    (fun c acc =>
      match acc with
      | [] => [[c]]
      | g :: gs => if c = sep then [] :: g :: gs else (c :: g) :: gs)
    [[]]

/-- Models Python str.split(sep, 1) for a one-character separator: the part
before the first occurrence and the part after it (the whole string and an
empty remainder when the separator is absent). -/
def splitOnce (sep : Char) (l : List Char) : List Char × List Char :=
  match splitFirst sep l with
  | none => (l, [])
  | some (a, b) => (a, b)

/-- Models Python str.rpartition(sep)[2]: the part after the last occurrence
of the separator, or the whole list when the separator is absent. -/
def afterLast (sep : Char) (l : List Char) : List Char :=
  (splitOnChar sep l).getLast?.getD l

/-- Value of a hexadecimal digit (both cases), or none. -/
def hexVal (c : Char) : Option Nat :=
  if '0' ≤ c ∧ c ≤ '9' then some (c.toNat - '0'.toNat)
  else if 'a' ≤ c ∧ c ≤ 'f' then some (c.toNat - 'a'.toNat + 10)
  else if 'A' ≤ c ∧ c ≤ 'F' then some (c.toNat - 'A'.toNat + 10)
  else none

/-! UTF-8 decoding of byte lists, needed to model bytes.decode() (strict,
used by base64_decode) and percent-decoding with errors replaced (used by
urllib.parse.unquote). -/

/-- Whether a byte is a UTF-8 continuation byte. -/
def utf8Cont (b : Nat) : Bool := 0x80 ≤ b ∧ b < 0xC0

/-- Valid second byte of a three-byte UTF-8 sequence with the given lead
byte (excludes overlong encodings and surrogates). -/
def utf8Second3 (b b2 : Nat) : Bool :=
  (b = 0xE0 && (0xA0 ≤ b2 ∧ b2 ≤ 0xBF)) ||
  (0xE1 ≤ b ∧ b ≤ 0xEC && utf8Cont b2) ||
  (b = 0xED && (0x80 ≤ b2 ∧ b2 ≤ 0x9F)) ||
  (0xEE ≤ b ∧ b ≤ 0xEF && utf8Cont b2)

/-- Valid second byte of a four-byte UTF-8 sequence with the given lead
byte (excludes overlong encodings and values beyond U+10FFFF). -/
def utf8Second4 (b b2 : Nat) : Bool :=
  (b = 0xF0 && (0x90 ≤ b2 ∧ b2 ≤ 0xBF)) ||
  (0xF1 ≤ b ∧ b ≤ 0xF3 && utf8Cont b2) ||
  (b = 0xF4 && (0x80 ≤ b2 ∧ b2 ≤ 0x8F))

/-- Models bytes.decode('utf-8', 'replace'): decodes a byte list as UTF-8,
emitting U+FFFD for invalid sequences and continuing at the offending
byte. -/
def utf8Replace : List Nat → List Char
  | [] => []
  | b :: rest =>
    if b < 0x80 then Char.ofNat b :: utf8Replace rest
    else if b < 0xC2 then Char.ofNat 0xFFFD :: utf8Replace rest
    else if b ≤ 0xDF then
      match rest with
      | [] => [Char.ofNat 0xFFFD]
      | b2 :: r2 =>
        if utf8Cont b2 then Char.ofNat ((b - 0xC0) * 0x40 + (b2 - 0x80)) :: utf8Replace r2
        else Char.ofNat 0xFFFD :: utf8Replace (b2 :: r2)
    else if b ≤ 0xEF then
      match rest with
      | [] => [Char.ofNat 0xFFFD]
      | [b2] =>
        if utf8Second3 b b2 then [Char.ofNat 0xFFFD]
        else Char.ofNat 0xFFFD :: utf8Replace [b2]
      | b2 :: b3 :: r3 =>
        if utf8Second3 b b2 then
          if utf8Cont b3 then
            Char.ofNat ((b - 0xE0) * 0x1000 + (b2 - 0x80) * 0x40 + (b3 - 0x80)) :: utf8Replace r3
          else Char.ofNat 0xFFFD :: utf8Replace (b3 :: r3)
        else Char.ofNat 0xFFFD :: utf8Replace (b2 :: b3 :: r3)
    else if b ≤ 0xF4 then
      match rest with
      | [] => [Char.ofNat 0xFFFD]
      | [b2] =>
        if utf8Second4 b b2 then [Char.ofNat 0xFFFD]
        else Char.ofNat 0xFFFD :: utf8Replace [b2]
      | [b2, b3] =>
        if utf8Second4 b b2 then
          if utf8Cont b3 then [Char.ofNat 0xFFFD]
          else Char.ofNat 0xFFFD :: utf8Replace [b3]
        else Char.ofNat 0xFFFD :: utf8Replace [b2, b3]
      | b2 :: b3 :: b4 :: r4 =>
        if utf8Second4 b b2 then
          if utf8Cont b3 then
            if utf8Cont b4 then
              Char.ofNat ((b - 0xF0) * 0x40000 + (b2 - 0x80) * 0x1000 +
                (b3 - 0x80) * 0x40 + (b4 - 0x80)) :: utf8Replace r4
            else Char.ofNat 0xFFFD :: utf8Replace (b4 :: r4)
          else Char.ofNat 0xFFFD :: utf8Replace (b3 :: b4 :: r4)
        else Char.ofNat 0xFFFD :: utf8Replace (b2 :: b3 :: b4 :: r4)
    else Char.ofNat 0xFFFD :: utf8Replace rest

/-- Models bytes.decode() (strict UTF-8): decodes a byte list as UTF-8,
failing on any invalid or truncated sequence. -/
def utf8Strict : List Nat → Except String (List Char)
  | [] => .ok []
  | b :: rest =>
    if b < 0x80 then
      match utf8Strict rest with
      | .error e => .error e
      | .ok cs => .ok (Char.ofNat b :: cs)
    else if b < 0xC2 then .error "invalid utf-8"
    else if b ≤ 0xDF then
      match rest with
      | [] => .error "invalid utf-8"
      | b2 :: r2 =>
        if utf8Cont b2 then
          match utf8Strict r2 with
          | .error e => .error e
          | .ok cs => .ok (Char.ofNat ((b - 0xC0) * 0x40 + (b2 - 0x80)) :: cs)
        else .error "invalid utf-8"
    else if b ≤ 0xEF then
      match rest with
      | b2 :: b3 :: r3 =>
        if utf8Second3 b b2 && utf8Cont b3 then
          match utf8Strict r3 with
          | .error e => .error e
          | .ok cs => .ok (Char.ofNat ((b - 0xE0) * 0x1000 + (b2 - 0x80) * 0x40 + (b3 - 0x80)) :: cs)
        else .error "invalid utf-8"
      | _ => .error "invalid utf-8"
    else if b ≤ 0xF4 then
      match rest with
      | b2 :: b3 :: b4 :: r4 =>
        if utf8Second4 b b2 && utf8Cont b3 && utf8Cont b4 then
          match utf8Strict r4 with
          | .error e => .error e
          | .ok cs => .ok (Char.ofNat ((b - 0xF0) * 0x40000 + (b2 - 0x80) * 0x1000 +
              (b3 - 0x80) * 0x40 + (b4 - 0x80)) :: cs)
        else .error "invalid utf-8"
      | _ => .error "invalid utf-8"
    else .error "invalid utf-8"

/-! Percent-decoding, modelling urllib.parse.unquote. -/

/-- One token of a percent-encoded string: a decoded byte from a valid
percent escape, or a literal character. -/
def unquoteTokens : List Char → List (Sum Nat Char)
  | [] => []
  | '%' :: a :: b :: rest2 =>
    match hexVal a, hexVal b with
    | some x, some y => Sum.inl (16 * x + y) :: unquoteTokens rest2
    | _, _ => Sum.inr '%' :: unquoteTokens (a :: b :: rest2)
  | '%' :: rest => Sum.inr '%' :: unquoteTokens rest
  | c :: rest => Sum.inr c :: unquoteTokens rest

/-- Groups maximal runs of decoded bytes so each run can be UTF-8 decoded
as a unit, as unquote does. -/
def groupTokens (ts : List (Sum Nat Char)) : List (Sum (List Nat) Char) :=
  ts.foldr
    (fun t acc =>
      match t, acc with
      | Sum.inr c, _ => Sum.inr c :: acc
      | Sum.inl b, Sum.inl bs :: rest => Sum.inl (b :: bs) :: rest
      | Sum.inl b, _ => Sum.inl [b] :: acc)
    []

/-- Models urllib.parse.unquote(s) with its default arguments: percent
escapes with two hex digits decode to bytes, maximal byte runs are UTF-8
decoded with invalid sequences replaced by U+FFFD, malformed escapes are
kept literally. -/
def unquote (s : String) : String :=
  String.mk ((groupTokens (unquoteTokens s.toList)).foldr
    (fun g acc =>
      match g with
      | Sum.inr c => c :: acc
      | Sum.inl bs => utf8Replace bs ++ acc)
    [])

/-! Query-string parsing, modelling urllib.parse.parse_qs / parse_qsl with
their default arguments (separator "&", blank values dropped, pairs without
"=" dropped, "+" decoded as space, names and values percent-decoded). -/

/-- Replaces "+" by a space, as parse_qsl does before unquoting. -/
def plusToSpace (l : List Char) : List Char :=
  l.map fun c => if c = '+' then ' ' else c

/-- Models urllib.parse.parse_qsl(qs) with default arguments, as an ordered
list of decoded name/value pairs. -/
def parseQsl (qs : String) : List (String × String) :=
  (splitOnChar '&' qs.toList).filterMap fun nv =>
    if nv.isEmpty then none
    else
      match splitFirst '=' nv with
      | none => none
      | some (n, v) =>
        if v.isEmpty then none
        else some (unquote (String.mk (plusToSpace n)), unquote (String.mk (plusToSpace v)))

/-- Models parse_qs(qs).get(key, []): the ordered list of decoded values
bound to the given name. -/
def qsGet (q : List (String × String)) (key : String) : List String :=
  q.filterMap fun nv => if nv.1 = key then some nv.2 else none

/-! Base64, modelling base64.b64decode(s).decode() as used by the
base64_decode transform. -/

/-- Value of a standard-alphabet base64 character, or none. -/
def b64Val (c : Char) : Option Nat :=
  if 'A' ≤ c ∧ c ≤ 'Z' then some (c.toNat - 'A'.toNat)
  else if 'a' ≤ c ∧ c ≤ 'z' then some (c.toNat - 'a'.toNat + 26)
  else if '0' ≤ c ∧ c ≤ '9' then some (c.toNat - '0'.toNat + 52)
  else if c = '+' then some 62
  else if c = '/' then some 63
  else none

/-- Decodes quads of base64 characters into bytes, failing when the data is
not properly padded (mirroring the binascii errors raised by b64decode on
wrong-length or misplaced-padding input). -/
def b64Quads : List Char → Except String (List Nat)
  | [] => .ok []
  | a :: b :: c :: d :: rest =>
    match b64Val a, b64Val b with
    | some va, some vb =>
      if c = '=' then
        if d = '=' ∧ rest = [] then .ok [va * 4 + vb / 16]
        else .error "Invalid base64-encoded string"
      else
        match b64Val c with
        | some vc =>
          if d = '=' then
            if rest = [] then .ok [va * 4 + vb / 16, (vb % 16) * 16 + vc / 4]
            else .error "Invalid base64-encoded string"
          else
            match b64Val d with
            | some vd =>
              match b64Quads rest with
              | .error e => .error e
              | .ok bs =>
                .ok ((va * 4 + vb / 16) :: ((vb % 16) * 16 + vc / 4) :: ((vc % 4) * 64 + vd) :: bs)
            | none => .error "Invalid base64-encoded string"
        | none => .error "Invalid base64-encoded string"
    | _, _ => .error "Invalid base64-encoded string"
  | _ => .error "Incorrect padding"

/-- Models base64.b64decode(s) with validate=False: non-ascii input fails,
characters outside the alphabet and padding are discarded, and the
remaining data must form properly padded quads. -/
def b64decodeToBytes (s : String) : Except String (List Nat) :=
  if s.toList.all (fun c => c.toNat < 128) then
    b64Quads (s.toList.filter fun c => (b64Val c).isSome || c = '=')
  else .error "non-ascii base64 input"

/-! HTML unescaping, modelling html.unescape restricted to the predefined
XML entities; the full HTML5 named-entity table and numeric references are
outside the modelled fragment (no Rule in the claims exercises them). -/

/-- Models html.unescape on the five predefined XML entities. -/
def htmlUnescapeList : List Char → List Char
  | [] => []
  | '&' :: 'a' :: 'm' :: 'p' :: ';' :: r => '&' :: htmlUnescapeList r
  | '&' :: 'l' :: 't' :: ';' :: r => '<' :: htmlUnescapeList r
  | '&' :: 'g' :: 't' :: ';' :: r => '>' :: htmlUnescapeList r
  | '&' :: 'q' :: 'u' :: 'o' :: 't' :: ';' :: r => Char.ofNat 34 :: htmlUnescapeList r
  | '&' :: 'a' :: 'p' :: 'o' :: 's' :: ';' :: r => Char.ofNat 39 :: htmlUnescapeList r
  | c :: r => c :: htmlUnescapeList r

/-! The proofpoint v2 rewrite.  The source applies
_PROOFPOINT_V2_RE = re.compile("-([0-9A-Fa-f]\x7b2\x7d)") with re.sub and a
lambda turning the captured hex pair into a character, then replaces all
underscores by slashes.  For this concrete pattern, re.sub is exactly the
left-to-right scan below (at each position, a hyphen followed by two hex
digits is consumed and replaced, otherwise one character is copied). -/

/-- The substitution step of proofpoint_v2_decode: every occurrence of a
hyphen followed by two hexadecimal digits becomes the character with that
hexadecimal code point. -/
def ppSub : List Char → List Char
  | [] => []
  | '-' :: a :: b :: rest2 =>
    match hexVal a, hexVal b with
    | some x, some y => Char.ofNat (16 * x + y) :: ppSub rest2
    | _, _ => '-' :: ppSub (a :: b :: rest2)
  | '-' :: rest => '-' :: ppSub rest
  | c :: rest => c :: ppSub rest

/-- The proofpoint_v2_decode transform: hex substitution, then every
underscore replaced by a slash. -/
def proofpointV2Decode (s : String) : String :=
  String.mk ((ppSub s.toList).map fun c => if c = '_' then '/' else c)

/-! Regex search, modelling re.Pattern.search as used by Matcher. -/

/-- Models re.compile(pattern).search(value) is not None, for regex
patterns free of metacharacters: such a pattern matches somewhere in the
value iff it occurs literally as a substring; the empty pattern matches
every string.  All patterns appearing in theorems below are in this
fragment. -/
def reSearch (pattern value : String) : Bool :=
  containsSeq pattern.toList value.toList

/-- Models re.compile(pattern).search(value) and group(1) for patterns of
the shape pre(mid)post with literal pre, mid and post: when the literal
concatenation occurs in the value the captured text is mid, otherwise the
result is nothing.  No claim depends on behaviour outside this fragment. -/
def reGroup1 (pattern value : String) : Option String :=
  match splitFirst '(' pattern.toList with
  | none => none
  | some (pre, rest) =>
    match splitFirst ')' rest with
    | none => none
    | some (mid, post) =>
      if containsSeq (pre ++ mid ++ post) value.toList then some (String.mk mid) else none

/-! URL parsing, modelling urllib.parse.urlparse.  The model covers the
string-splitting algorithm of urlsplit (removal of tab, carriage return and
newline; scheme detection; netloc, fragment, query splitting; the
mismatched-bracket check that raises ValueError "Invalid IPv6 URL") and the
parameter split of urlparse.  Version-dependent extra validation of
bracketed hosts and non-ascii netlocs is outside the modelled fragment;
it only adds further failure cases on exotic inputs. -/

/-- The components of a parsed URL, as in urllib.parse.ParseResult. -/
structure ParseResult where
  scheme : String
  netloc : String
  path : String
  params : String
  query : String
  fragment : String
deriving DecidableEq

/-- Models the host part of SplitResult._hostinfo: the netloc after the
last at sign, then the bracketed host if a bracket is present, otherwise
everything before the first colon. -/
def netlocHostRaw (netloc : List Char) : List Char :=
  let hostinfo := afterLast '@' netloc
  match splitFirst '[' hostinfo with
  | some (_, brrest) =>
    match splitFirst ']' brrest with
    | none => brrest
    | some (h, _) => h
  | none =>
    match splitFirst ':' hostinfo with
    | none => hostinfo
    | some (h, _) => h

/-- Models the ParseResult.hostname property: none when the extracted host
is empty, otherwise the host lower-cased (ASCII case folding; the source
strings in the claims are ASCII). -/
def ParseResult.hostname (p : ParseResult) : Option String :=
  let h := netlocHostRaw p.netloc.toList
  if h.isEmpty then none else some (String.mk (h.map Char.toLower))

/-- Characters allowed in a URL scheme after the initial letter. -/
def schemeChar (c : Char) : Bool :=
  c.isAlpha || c.isDigit || c == '+' || c == '-' || c == '.'

/-- Models the scheme-detection step of urlsplit: a colon at a positive
index preceded only by scheme characters starting with a letter splits off
a lower-cased scheme. -/
def splitScheme (l : List Char) : String × List Char :=
  match l.findIdx? (fun c => c == ':') with
  | none => ("", l)
  | some i =>
    match l with
    | [] => ("", l)
    | c0 :: _ =>
      if 0 < i ∧ c0.isAlpha = true ∧ (l.take i).all schemeChar = true then
        (String.mk ((l.take i).map Char.toLower), l.drop (i + 1))
      else ("", l)

/-- Models _splitnetloc: the netloc extends to the first slash, question
mark or hash. -/
def splitNetloc (l : List Char) : List Char × List Char :=
  match l.findIdx? (fun c => c == '/' || c == '?' || c == '#') with
  | none => (l, [])
  | some i => (l.take i, l.drop i)

/-- Models urlsplit: removes tab, carriage return and newline characters,
splits scheme, netloc, fragment and query, and fails with the
mismatched-bracket ValueError on a netloc with an unbalanced square
bracket. -/
def urlsplitE (url : String) : Except String ParseResult :=
  let l := url.toList.filter fun c => !(c == Char.ofNat 9 || c == Char.ofNat 13 || c == Char.ofNat 10)
  let sp := splitScheme l
  match sp.2 with
  | '/' :: '/' :: l2 =>
    let nl := splitNetloc l2
    if (nl.1.contains '[' && !(nl.1.contains ']')) ||
        (nl.1.contains ']' && !(nl.1.contains '[')) then
      .error "Invalid IPv6 URL"
    else
      let fr := splitOnce '#' nl.2
      let qu := splitOnce '?' fr.1
      .ok ⟨sp.1, String.mk nl.1, String.mk qu.1, "", String.mk qu.2, String.mk fr.2⟩
  | _ =>
    let fr := splitOnce '#' sp.2
    let qu := splitOnce '?' fr.1
    .ok ⟨sp.1, "", String.mk qu.1, "", String.mk qu.2, String.mk fr.2⟩

/-- Models _splitparams: the parameters start at the first semicolon of the
last path segment. -/
def splitParamsList (path : List Char) : List Char × List Char :=
  if path.contains '/' then
    match (path.reverse.findIdx? (fun c => c == '/')) with
    | none => (path, [])
    | some ri =>
      let j := path.length - 1 - ri
      match ((path.drop j).findIdx? (fun c => c == ';')) with
      | none => (path, [])
      | some k => (path.take (j + k), path.drop (j + k + 1))
  else
    match path.findIdx? (fun c => c == ';') with
    | none => (path, [])
    | some i => (path.take i, path.drop (i + 1))

/-- Models urllib.parse.urlparse: urlsplit followed by the parameter split
on the path. -/
def urlparseE (url : String) : Except String ParseResult :=
  match urlsplitE url with
  | .error e => .error e
  | .ok p =>
    if p.path.toList.contains ';' then
      let pp := splitParamsList p.path.toList
      .ok { p with path := String.mk pp.1, params := String.mk pp.2 }
    else .ok p

/-! The Matcher class (schemas.py). -/

/-- A pattern that matches by exact string comparison or by regex, chosen
from the raw string at construction: a raw value of length at least two
that starts and ends with a slash is a regex whose pattern is the text
between the slashes, anything else is an exact pattern. -/
structure Matcher where
  raw : String
deriving DecidableEq

/-- The is_regex field computed in Matcher.__post_init__. -/
def Matcher.is_regex (m : Matcher) : Bool :=
  decide (2 ≤ m.raw.toList.length) && (m.raw.toList.head? == some '/') &&
    (m.raw.toList.getLast? == some '/')

/-- The pattern field computed in Matcher.__post_init__: the raw value with
the delimiting slashes stripped for the regex variant, the raw value
itself otherwise. -/
def Matcher.pattern (m : Matcher) : String :=
  if m.is_regex then String.mk ((m.raw.toList.drop 1).dropLast) else m.raw

/-- Matcher.matches: regex search for the regex variant, string equality
for the exact variant. -/
def Matcher.matches (m : Matcher) (value : String) : Bool :=
  if m.is_regex then reSearch m.pattern value else value == m.pattern

/-! The Filter class (schemas.py). -/

/-- A Filter: hostname matchers (required non-empty by construction) and
optional path matchers. -/
structure Filter where
  hostname : List Matcher
  path : List Matcher
deriving DecidableEq

/-- Filter.matches given an already-parsed URL: the parsed hostname (empty
string when absent) must match some hostname matcher, and either there are
no path matchers or the parsed path matches some path matcher. -/
def Filter.matchesp (f : Filter) (p : ParseResult) : Bool :=
  (f.hostname.any fun m => m.matches (p.hostname.getD "")) &&
    (f.path.isEmpty || f.path.any fun m => m.matches p.path)

/-- Filter.matches with the optional pre-parsed URL: parses the URL when no
parse is supplied (parsing may raise), then applies the parsed-URL test. -/
def Filter.matches (f : Filter) (url : String) (parsed : Option ParseResult) :
    Except String Bool :=
  match parsed with
  | some p => .ok (f.matchesp p)
  | none =>
    match urlparseE url with
    | .error e => .error e
    | .ok p => .ok (f.matchesp p)

/-! The Transform class (schemas.py). -/

/-- A named, optionally parameterized text rewrite. -/
structure Transform where
  name : String
  value : Option String
deriving DecidableEq

/-- Transform.call: dispatch on the transform name.  base64_decode is the
only fallible branch (invalid base64 or invalid UTF-8 after decoding); the
final branch models the defensive unknown-name raise after the match
statement. -/
def Transform.call (t : Transform) (v : String) : Except String String :=
  if t.name = "html_unescape" then .ok (String.mk (htmlUnescapeList v.toList))
  else if t.name = "url_decode" then .ok (unquote v)
  else if t.name = "base64_decode" then
    match b64decodeToBytes v with
    | .error e => .error e
    | .ok bytes =>
      match utf8Strict bytes with
      | .error e => .error e
      | .ok chars => .ok (String.mk chars)
  else if t.name = "prepend" then .ok (t.value.getD "" ++ v)
  else if t.name = "proofpoint_v2_decode" then .ok (proofpointV2Decode v)
  else .error "unknown transform"

/-! The Extract class (schemas.py). -/

/-- The source kinds of an Extract. -/
inductive ExtractSource
  | QUERY_PARAM
  | PATH_REGEX
  | URL_REGEX
deriving DecidableEq

/-- The selection policy for repeated query parameters. -/
inductive ParamSelect
  | FIRST
  | LAST
deriving DecidableEq

/-- An extractor: a source kind with its fields (keys and select for
query_param, pattern for the regex kinds). -/
structure Extract where
  source : ExtractSource
  keys : List String
  pattern : Option String
  select : ParamSelect
deriving DecidableEq

/-- The body of the query_param loop for one key: nothing when the key has
no values, otherwise the first or last value per the selection policy. -/
def selectValue (sel : ParamSelect) : List String → Option String
  | [] => none
  | v :: rest =>
    some (match sel with
      | ParamSelect.FIRST => v
      | ParamSelect.LAST => (v :: rest).getLast (List.cons_ne_nil v rest))

/-- The query_param key loop of Extract.call: scan keys in order and stop
at the first key that has at least one value. -/
def scanKeys (sel : ParamSelect) (q : List (String × String)) : List String → Option String
  | [] => none
  | k :: ks =>
    match selectValue sel (qsGet q k) with
    | some v => some v
    | none => scanKeys sel q ks

/-- Extract.call given an already-parsed URL: query_param scans the parsed
query string, path_regex searches the parsed path, url_regex searches the
whole URL string that was passed in. -/
def Extract.callp (e : Extract) (url : String) (p : ParseResult) : Option String :=
  match e.source with
  | ExtractSource.QUERY_PARAM => scanKeys e.select (parseQsl p.query) e.keys
  | ExtractSource.PATH_REGEX => reGroup1 (e.pattern.getD "") p.path
  | ExtractSource.URL_REGEX => reGroup1 (e.pattern.getD "") url

/-- Extract.call with the optional pre-parsed URL: parses the URL when no
parse is supplied (parsing may raise). -/
def Extract.call (e : Extract) (url : String) (parsed : Option ParseResult) :
    Except String (Option String) :=
  match parsed with
  | some p => .ok (e.callp url p)
  | none =>
    match urlparseE url with
    | .error err => .error err
    | .ok p => .ok (e.callp url p)

/-! The Rule and RuleSet classes (schemas.py) and the public entry point
is_protected_link (main.py). -/

/-- A Rule: a name, one Filter, one Extract, and ordered pre- and
post-extraction transforms. -/
structure Rule where
  name : String
  filter : Filter
  extract : Extract
  pre_extract : List Transform
  post_extract : List Transform
deriving DecidableEq

/-- Sequential application of transforms, each output feeding the next;
a raise in any transform propagates (the source loop has no handler). -/
def applyTransforms : List Transform → String → Except String String
  | [], s => .ok s
  | t :: rest, s =>
    match t.call s with
    | .error e => .error e
    | .ok s2 => applyTransforms rest s2

/-- Rule.call given an already-parsed URL: filter check, pre-extraction
transforms on the URL string, extraction (reusing the parse only when no
pre-extraction transform ran, exactly as the source does), then
post-extraction transforms on the extracted value.  Errors raised by
transforms or by re-parsing propagate out. -/
def Rule.callp (r : Rule) (url : String) (p : ParseResult) : Except String (Option String) :=
  if r.filter.matchesp p then
    match applyTransforms r.pre_extract url with
    | .error e => .error e
    | .ok url2 =>
      match r.extract.call url2 (if r.pre_extract.isEmpty then some p else none) with
      | .error e => .error e
      | .ok none => .ok none
      | .ok (some result) =>
        match applyTransforms r.post_extract result with
        | .error e => .error e
        | .ok result2 => .ok (some result2)
  else .ok none

/-- Rule.call with the optional pre-parsed URL. -/
def Rule.call (r : Rule) (url : String) (parsed : Option ParseResult) :
    Except String (Option String) :=
  match parsed with
  | some p => r.callp url p
  | none =>
    match urlparseE url with
    | .error e => .error e
    | .ok p => r.callp url p

/-- An ordered collection of rules. -/
structure RuleSet where
  rules : List Rule
deriving DecidableEq

/-- The rule loop of RuleSet.call: rules are evaluated in list order
against the shared parse, the first non-nothing result is returned, and a
raise in any rule propagates. -/
def evalRules (url : String) (p : ParseResult) : List Rule → Except String (Option String)
  | [] => .ok none
  | r :: rest =>
    match r.callp url p with
    | .error e => .error e
    | .ok (some v) => .ok (some v)
    | .ok none => evalRules url p rest

/-- RuleSet.call: parse the URL once, then evaluate the rules in order. -/
def RuleSet.call (rs : RuleSet) (url : String) : Except String (Option String) :=
  match urlparseE url with
  | .error e => .error e
  | .ok p => evalRules url p rs.rules

/-- RuleSet.__post_init__ as a constructor: fails when the rule list is
empty or when some rule name occurs more than once. -/
def RuleSet.make (rules : List Rule) : Except String RuleSet :=
  if rules.isEmpty then .error "at least one rule is required"
  else if (rules.map Rule.name).any (fun n => decide (1 < (rules.map Rule.name).count n)) then
    .error "duplicate rule names"
  else .ok ⟨rules⟩

/-- is_protected_link (main.py) with an explicit rule set: parse the URL
once and test whether any rule filter alone matches; no transform or
extractor runs.  This is the contains_match operation of the spec. -/
def is_protected_link (rs : RuleSet) (url : String) : Except String Bool :=
  match urlparseE url with
  | .error e => .error e
  | .ok p => .ok (rs.rules.any fun r => r.filter.matchesp p)

/-- Whether an Except value is a success. -/
def exceptOk {ε α : Type} (e : Except ε α) : Bool :=
  match e with
  | .ok _ => true
  | .error _ => false

/-! Concrete rules and URLs used as witnesses below. -/

/-- An exact hostname matcher for example.com. -/
def mExample : Matcher := ⟨"example.com"⟩

/-- A filter recognizing the hostname example.com with no path matchers. -/
def fExample : Filter := ⟨[mExample], []⟩

/-- A rule extracting query parameter a from example.com URLs. -/
def ruleA : Rule := ⟨"a", fExample, ⟨ExtractSource.QUERY_PARAM, ["a"], none, ParamSelect.FIRST⟩, [], []⟩

/-- A rule extracting query parameter b from example.com URLs. -/
def ruleB : Rule := ⟨"b", fExample, ⟨ExtractSource.QUERY_PARAM, ["b"], none, ParamSelect.FIRST⟩, [], []⟩

/-- A URL matched by both ruleA and ruleB. -/
def urlAB : String := "https://example.com/?a=1&b=2"

/-- The parse of urlAB. -/
def pAB : ParseResult := ⟨"https", "example.com", "/", "", "a=1&b=2", ""⟩

/-- A rule whose post-extraction transform base64-decodes the extracted
value, as the sophos rule of the shipped rule directory does. -/
def ruleB64 : Rule :=
  ⟨"sophos_like", fExample, ⟨ExtractSource.QUERY_PARAM, ["u"], none, ParamSelect.FIRST⟩, [],
    [⟨"base64_decode", none⟩]⟩

/-- A later rule that would succeed on urlBadB64 without any transform. -/
def ruleAfterB64 : Rule :=
  ⟨"fallback", fExample, ⟨ExtractSource.QUERY_PARAM, ["u"], none, ParamSelect.FIRST⟩, [], []⟩

/-- A rule set placing the base64 rule before the plain rule. -/
def rsB64 : RuleSet := ⟨[ruleB64, ruleAfterB64]⟩

/-- A URL whose u parameter is not valid base64 (five data characters). -/
def urlBadB64 : String := "https://example.com/?u=aaaaa"

/-- The query-parameter extractor of claim C7 (keys u, select last). -/
def extractULast : Extract := ⟨ExtractSource.QUERY_PARAM, ["u"], none, ParamSelect.LAST⟩

/-- The URL of claim C7 with a repeated percent-encoded u parameter. -/
def urlRepeatedU : String := "https://x.example/?u=http%3A%2F%2Fexample.com&u=http%3A%2F%2Fother.com"

/-- The proofpoint_v2_decode transform. -/
def tProofpoint : Transform := ⟨"proofpoint_v2_decode", none⟩

/-- Two distinct rules sharing the name x. -/
def ruleX1 : Rule := ⟨"x", fExample, ⟨ExtractSource.QUERY_PARAM, ["a"], none, ParamSelect.FIRST⟩, [], []⟩

/-- A second rule also named x. -/
def ruleX2 : Rule := ⟨"x", fExample, ⟨ExtractSource.QUERY_PARAM, ["b"], none, ParamSelect.FIRST⟩, [], []⟩

/-- A URL that differs from urlFragOnly only in its query string. -/
def urlQueryOnly : String := "https://example.com/a?x=1"

/-- A URL that differs from urlQueryOnly only in its fragment. -/
def urlFragOnly : String := "https://example.com/a#frag"

/-- The parse of urlQueryOnly. -/
def pQueryOnly : ParseResult := ⟨"https", "example.com", "/a", "", "x=1", ""⟩

/-- The parse of urlFragOnly. -/
def pFragOnly : ParseResult := ⟨"https", "example.com", "/a", "", "", "frag"⟩

/-- The raw matcher value consisting of a single slash. -/
def mSlash : Matcher := ⟨"/"⟩

/-- The raw matcher value consisting of two slashes. -/
def mSlashSlash : Matcher := ⟨"//"⟩

/-! Helper lemmas about the embedded operations. -/

/-- The empty search pattern occurs in every string. -/
theorem containsSeq_nil (l : List Char) : containsSeq [] l = true := by
  cases l <;> rfl

/-- A rule that produced a value passed its filter. -/
theorem callp_filter_of_some {r : Rule} {url : String} {p : ParseResult} {v : String}
    (h : Rule.callp r url p = .ok (some v)) : r.filter.matchesp p = true := by
  cases hm : r.filter.matchesp p with
  | true => rfl
  | false =>
    unfold Rule.callp at h
    rw [hm] at h
    simp at h

/-- A rule whose filter fails returns nothing without further work. -/
theorem callp_none_of_filter_false {r : Rule} {url : String} {p : ParseResult}
    (hm : r.filter.matchesp p = false) : Rule.callp r url p = .ok none := by
  unfold Rule.callp
  rw [hm]
  simp

/-- If the rule loop produced a value, some rule filter matched. -/
theorem evalRules_any_matches {url : String} {p : ParseResult} {v : String} :
    ∀ {rules : List Rule}, evalRules url p rules = .ok (some v) →
      (rules.any fun r => r.filter.matchesp p) = true := by
  intro rules
  induction rules with
  | nil => intro h; simp [evalRules] at h
  | cons r rest ih =>
    intro h
    simp only [evalRules] at h
    cases hr : Rule.callp r url p with
    | error e => rw [hr] at h; simp at h
    | ok o =>
      cases o with
      | some w =>
        have hmf := callp_filter_of_some hr
        simp [List.any_cons, hmf]
      | none =>
        rw [hr] at h
        simp only [List.any_cons, Bool.or_eq_true]
        exact Or.inr (ih h)

/-- If no rule filter matches, the rule loop returns nothing. -/
theorem evalRules_none_of_no_filter {url : String} {p : ParseResult} :
    ∀ {rules : List Rule}, (∀ r ∈ rules, r.filter.matchesp p = false) →
      evalRules url p rules = .ok none := by
  intro rules
  induction rules with
  | nil => intro _; rfl
  | cons r rest ih =>
    intro h
    have h1 := h r (List.mem_cons_self r rest)
    have h2 : ∀ x ∈ rest, x.filter.matchesp p = false := fun x hx =>
      h x (List.mem_cons_of_mem r hx)
    simp only [evalRules]
    rw [callp_none_of_filter_false h1]
    exact ih h2

/-- The rule loop is the first-non-nothing fold over the individual rule
results, when every rule evaluates without raising. -/
theorem evalRules_forall2 {url : String} {p : ParseResult} {rules : List Rule}
    {os : List (Option String)}
    (h : List.Forall₂ (fun r o => Rule.callp r url p = Except.ok o) rules os) :
    evalRules url p rules = .ok ((os.filterMap id).head?) := by
  induction h with
  | nil => rfl
  | @cons r o rules2 os2 h1 _ ih =>
    cases o with
    | some v =>
      simp only [evalRules]
      rw [h1]
      simp [List.filterMap_cons]
    | none =>
      simp only [evalRules]
      rw [h1]
      simpa [List.filterMap_cons] using ih

/-- The query_param key scan equals finding the first key with a value and
selecting from its occurrence list. -/
theorem scanKeys_eq_find (sel : ParamSelect) (q : List (String × String)) :
    ∀ keys : List String,
      scanKeys sel q keys =
        (keys.find? fun k => !(qsGet q k).isEmpty).bind fun k =>
          match sel with
          | ParamSelect.FIRST => (qsGet q k).head?
          | ParamSelect.LAST => (qsGet q k).getLast? := by
  intro keys
  induction keys with
  | nil => rfl
  | cons k ks ih =>
    cases hq : qsGet q k with
    | nil =>
      simp only [scanKeys, selectValue, hq, List.find?]
      simpa [hq] using ih
    | cons v vs =>
      simp only [scanKeys, selectValue, hq, List.find?, List.isEmpty_cons, Bool.not_false,
        Option.some_bind]
      cases sel with
      | FIRST => simp
      | LAST => simp [List.getLast?_eq_getLast (v :: vs) (List.cons_ne_nil v vs)]

/-! The claims. -/

/-- C1 (code bug): the spec requires a transform decode failure to leave
the owning rule's evaluation as nothing and let the rule set continue, but
the source has no handler: the failure propagates as an error out of
Rule.call and aborts RuleSet.call.  On urlBadB64 the first rule's filter
matches and its base64_decode post-transform fails, so the two-rule set
errors out, although the second rule alone would have produced a value. -/
theorem C1_decode_failure_aborts_ruleset :
    RuleSet.call rsB64 urlBadB64 = .error "Incorrect padding" ∧
      RuleSet.call ⟨[ruleAfterB64]⟩ urlBadB64 = .ok (some "aaaaa") :=
  ⟨rfl, rfl⟩

/-- C2: RuleSet.call parses the URL once, evaluates the rules in list
order against that parse, and returns the first non-nothing rule result
(nothing only when every rule yields nothing); in particular, when several
rules would produce a value, the result is the first one's. -/
theorem C2_first_non_nothing_wins (rs : RuleSet) (url : String) (p : ParseResult)
    (os : List (Option String)) (hp : urlparseE url = .ok p)
    (h : List.Forall₂ (fun r o => Rule.callp r url p = Except.ok o) rs.rules os) :
    RuleSet.call rs url = .ok ((os.filterMap id).head?) := by
  unfold RuleSet.call
  rw [hp]
  exact evalRules_forall2 h

/-- Witness for C2: both rules of the set match urlAB and would extract a
value (1 for the first rule, 2 for the second); the result is the first
rule's value. -/
theorem C2_witness : RuleSet.call ⟨[ruleA, ruleB]⟩ urlAB = .ok (some "1") :=
  C2_first_non_nothing_wins ⟨[ruleA, ruleB]⟩ urlAB pAB [some "1", some "2"] rfl
    (List.Forall₂.cons rfl (List.Forall₂.cons rfl List.Forall₂.nil))

/-- C3: contains_match is monotonically weaker than full evaluation: if
RuleSet.call returns a value then is_protected_link is true, because a
rule producing a value passed its filter. -/
theorem C3_evaluate_implies_contains_match (rs : RuleSet) (url : String) (v : String)
    (h : RuleSet.call rs url = .ok (some v)) : is_protected_link rs url = .ok true := by
  unfold RuleSet.call at h
  cases hp : urlparseE url with
  | error e => rw [hp] at h; simp at h
  | ok p =>
    rw [hp] at h
    dsimp only at h
    unfold is_protected_link
    rw [hp]
    dsimp only
    rw [evalRules_any_matches h]

/-- Witness for C3: the one-rule set extracts 1 from urlAB, and
is_protected_link accordingly reports true. -/
theorem C3_witness : is_protected_link ⟨[ruleA]⟩ urlAB = .ok true :=
  C3_evaluate_implies_contains_match ⟨[ruleA]⟩ urlAB "1" rfl

/-- C4: Filter.matches is true exactly when the parsed hostname
(lower-cased inside ParseResult.hostname, defaulting to the empty string
when absent) matches some hostname matcher and either there are no path
matchers or the parsed path matches some path matcher. -/
theorem C4_filter_matches_iff (f : Filter) (url : String) (p : ParseResult)
    (hp : urlparseE url = .ok p) :
    Filter.matches f url none = .ok true ↔
      ((∃ m ∈ f.hostname, m.matches (p.hostname.getD "") = true) ∧
        (f.path = [] ∨ ∃ m ∈ f.path, m.matches p.path = true)) := by
  unfold Filter.matches
  rw [hp]
  simp [Filter.matchesp, List.any_eq_true, List.isEmpty_iff]

/-- Witness for C4 at the example.com filter and urlAB. -/
theorem C4_witness :
    Filter.matches fExample urlAB none = .ok true ↔
      ((∃ m ∈ fExample.hostname, m.matches (pAB.hostname.getD "") = true) ∧
        (fExample.path = [] ∨ ∃ m ∈ fExample.path, m.matches pAB.path = true)) :=
  C4_filter_matches_iff fExample urlAB pAB rfl

/-- C5: Filter.matches depends only on the parsed hostname and path: two
URLs whose parses agree on hostname and path (however they differ in query
or fragment) receive the same answer. -/
theorem C5_depends_only_on_hostname_path (f : Filter) (u1 u2 : String)
    (p1 p2 : ParseResult) (h1 : urlparseE u1 = .ok p1) (h2 : urlparseE u2 = .ok p2)
    (hh : p1.hostname = p2.hostname) (hpa : p1.path = p2.path) :
    Filter.matches f u1 none = Filter.matches f u2 none := by
  unfold Filter.matches
  rw [h1, h2]
  simp only [Filter.matchesp, hh, hpa]

/-- Witness for C5: the two URLs differ in query and fragment only. -/
theorem C5_witness :
    Filter.matches fExample urlQueryOnly none = Filter.matches fExample urlFragOnly none :=
  C5_depends_only_on_hostname_path fExample urlQueryOnly urlFragOnly pQueryOnly pFragOnly
    rfl rfl rfl rfl

/-- C6: proofpoint_v2_decode turns http-3A__example.com into
http://example.com (hyphen-hex pairs become the coded character, then
underscores become slashes); the second step leaves no underscore in any
result. -/
theorem C6_proofpoint_decode :
    Transform.call tProofpoint "http-3A__example.com" = .ok "http://example.com" ∧
      ∀ s : String, ((proofpointV2Decode s).toList.contains '_') = false := by
  refine ⟨rfl, fun s => ?_⟩
  show (((ppSub s.toList).map fun c => if c = '_' then '/' else c).contains '_') = false
  induction ppSub s.toList with
  | nil => rfl
  | cons c t ih =>
    simp only [List.map_cons, List.contains_cons, ih, Bool.or_false]
    by_cases hc : c = '_'
    · simp [hc]
    · simp only [if_neg hc]
      exact beq_eq_false_iff_ne.mpr fun hh => hc hh.symm

/-- C7 counterexample: against the repeated percent-encoded u parameter
with select last, extraction yields the already percent-decoded last value
http://other.com, not the raw text claimed. -/
theorem C7_counterexample :
    Extract.call extractULast urlRepeatedU none = .ok (some "http://other.com") ∧
      ("http://other.com" : String) ≠ "http%3A%2F%2Fother.com" :=
  ⟨rfl, by decide⟩

/-- C7 as amended: the query_param extractor scans its keys in order and
stops at the first key present with at least one value, taking that key's
first or last occurrence per the selection policy and nothing when no key
is present; the occurrence lists come from query-string parsing, which
percent-decodes values, so the example yields http://other.com already
decoded. -/
theorem C7_query_param_scan :
    (∀ (keys : List String) (sel : ParamSelect) (url : String) (p : ParseResult),
        Extract.call ⟨ExtractSource.QUERY_PARAM, keys, none, sel⟩ url (some p) =
          .ok ((keys.find? fun k => !(qsGet (parseQsl p.query) k).isEmpty).bind fun k =>
            match sel with
            | ParamSelect.FIRST => (qsGet (parseQsl p.query) k).head?
            | ParamSelect.LAST => (qsGet (parseQsl p.query) k).getLast?)) ∧
      Extract.call extractULast urlRepeatedU none = .ok (some "http://other.com") := by
  refine ⟨fun keys sel url p => ?_, rfl⟩
  show Except.ok (Extract.callp ⟨ExtractSource.QUERY_PARAM, keys, none, sel⟩ url p) = _
  rw [Extract.callp]
  rw [scanKeys_eq_find]

/-- C8: RuleSet construction succeeds exactly when the rule list is
non-empty and the rule names are pairwise distinct; in particular two
rules both named x are rejected. -/
theorem C8_construction_requires_distinct_names :
    (∀ rules : List Rule,
        exceptOk (RuleSet.make rules) = true ↔ rules ≠ [] ∧ (rules.map Rule.name).Nodup) ∧
      exceptOk (RuleSet.make [ruleX1, ruleX2]) = false := by
  constructor
  · intro rules
    unfold RuleSet.make exceptOk
    split_ifs with h1 h2
    · simp only [List.isEmpty_iff] at h1
      simp [h1]
    · simp only [List.any_eq_true, decide_eq_true_eq] at h2
      obtain ⟨n, _, hcount⟩ := h2
      constructor
      · intro hfalse; exact absurd hfalse (by simp)
      · rintro ⟨-, hnd⟩
        exact absurd (List.nodup_iff_count_le_one.mp hnd n) (by omega)
    · simp only [List.isEmpty_iff] at h1
      simp only [List.any_eq_true, decide_eq_true_eq, not_exists, not_and, not_lt] at h2
      constructor
      · intro _
        refine ⟨h1, List.nodup_iff_count_le_one.mpr fun a => ?_⟩
        by_cases ha : a ∈ rules.map Rule.name
        · exact h2 a ha
        · simp [List.count_eq_zero.mpr ha]
      · intro _; rfl
  · rfl

/-- C9: on a URL whose parse lets every rule filter return false,
RuleSet.call of a (non-empty, as guaranteed by construction) rule set
returns nothing and reaches no error branch. -/
theorem C9_no_filter_match_returns_none (rs : RuleSet) (url : String)
    (hne : rs.rules ≠ [])
    (h : ∀ r ∈ rs.rules, Filter.matches r.filter url none = .ok false) :
    RuleSet.call rs url = .ok none := by
  obtain ⟨r0, hr0⟩ := List.exists_mem_of_ne_nil rs.rules hne
  have h0 := h r0 hr0
  unfold Filter.matches at h0
  cases hp : urlparseE url with
  | error e => rw [hp] at h0; simp at h0
  | ok p =>
    rw [hp] at h0
    unfold RuleSet.call
    rw [hp]
    refine evalRules_none_of_no_filter fun r hr => ?_
    have hrr := h r hr
    unfold Filter.matches at hrr
    rw [hp] at hrr
    simpa using hrr

/-- Witness for C9: no filter of the one-rule set matches other.com. -/
theorem C9_witness : RuleSet.call ⟨[ruleA]⟩ "https://other.com/" = .ok none :=
  C9_no_filter_match_returns_none ⟨[ruleA]⟩ "https://other.com/"
    (List.cons_ne_nil ruleA [])
    (fun r hr => by
      have hr2 : r = ruleA := List.mem_singleton.mp hr
      subst hr2
      rfl)

/-- C10: the raw pattern consisting of a single slash is the exact
variant (the regex form needs length at least two), so it matches exactly
the string consisting of one slash; the raw pattern of two slashes is the
regex variant with the empty pattern, which matches every string. -/
theorem C10_slash_matcher_variants :
    Matcher.is_regex mSlash = false ∧
      Matcher.is_regex mSlashSlash = true ∧
      Matcher.pattern mSlashSlash = "" ∧
      (∀ v : String, Matcher.matches mSlash v = (v == "/")) ∧
      (∀ v : String, Matcher.matches mSlashSlash v = true) := by
  refine ⟨rfl, rfl, rfl, fun v => rfl, fun v => ?_⟩
  show reSearch (Matcher.pattern mSlashSlash) v = true
  exact containsSeq_nil v.toList

end Kachi
